import Mathlib

/-!
A shallow embedding of the aggregation engine of `src/app.py` (a pandas
batch-processing core: status tallies, success rates by dimension, and the
verify-code → accepted duration correlator), together with proofs of the
specification claims about it.

Modelling conventions:
* A pandas `DataFrame` is a list of fully-populated event records plus the
  list of column names actually present in the batch (`DataFrame.cols`);
  the only code that inspects column presence is `prepare_common_cols` and
  the guard at the top of `compute_durations`, which is exactly what the
  source does.
* `createdAt` timestamps are integers (milliseconds), counts are `Nat`,
  and the float ratios of the source are modelled as `ℚ`; pandas `NA`
  (the "undefined ratio" marker) is modelled as `none : Option ℚ`.
* `country_name` is `Option String`: pandas `groupby` drops rows whose
  grouping key is null, which the embedding mirrors by grouping only over
  the `some` values.
* `df.sort_values(["user_id", "payment_name", "createdAt"])` sorts on
  several columns, for which pandas uses `numpy.lexsort`, a stable sort;
  it is embedded as `List.mergeSort` (stable) under the lexicographic
  order on the three columns.
* Row order of the produced tables (pandas sorts group keys, and
  `value_counts` sorts by count) is not modelled: no claim mentions it,
  and the embedding keeps first-occurrence order of the keys instead.
* The embedding is layered: the `compute_*` functions are the total
  computations the source performs on a batch that carries the columns
  they read, and the `Except`-valued `compute_*_df` wrappers and
  `run_report` additionally model the `KeyError` that pandas raises when
  `df[c]`, `groupby` or `sort_values` touches an absent column
  (src/app.py:46,54,84,111) — `.error c` names the first missing column,
  and aborts the run exactly where the source would.
-/

/-- One transaction event, with the fields of the JSON records that
`src/app.py` consumes. -/
structure Event where
  id : Nat
  user_id : Nat
  createdAt : Int
  status : String
  payment_id : Nat
  country_id : Nat
  country_name : Option String
  payment_name : String
  method : String
deriving DecidableEq, Repr

/-- A decoded batch: the rows, and the set of columns present in the
source data (fields of rows whose column is absent are never read by the
embedded code, mirroring the column guards of the source). -/
structure DataFrame where
  cols : List String
  rows : List Event
deriving DecidableEq, Repr

/-- The `needed` column list of `prepare_common_cols` (src/app.py:24-34). -/
def needed_cols : List String :=
  ["id", "user_id", "createdAt", "status", "payment_id",
   "country_id", "country_name", "payment_name", "method"]

/-- Embeds `prepare_common_cols` (src/app.py:23-38): computes the list of
required columns missing from the whole batch (reported once, as the single
`st.warning` diagnostic) and returns the data frame itself, unchanged. -/
def prepare_common_cols (df : DataFrame) : List String × DataFrame :=
  (needed_cols.filter (fun c => !(df.cols.contains c)), df)

/-- One output row of `compute_status_overall`. -/
structure StatusRow where
  status : String
  count : Nat
  share : ℚ
deriving DecidableEq, Repr

/-- The `count` column of `value_counts`: how many events carry status `s`. -/
def statusCount (rows : List Event) (s : String) : Nat :=
  (rows.filter (fun e => e.status == s)).length

/-- `out["count"].sum()`: the sum of the per-status counts. -/
def totalStatusCount (rows : List Event) : Nat :=
  (((rows.map Event.status).dedup).map (statusCount rows)).sum

/-- One row of the overall status table. -/
def mkStatusRow (rows : List Event) (s : String) : StatusRow :=
  { status := s
    count := statusCount rows s
    share := (statusCount rows s : ℚ) / (totalStatusCount rows : ℚ) }

/-- Embeds `compute_status_overall` (src/app.py:45-49): `value_counts` over
the `status` column, plus a `share` column dividing each count by the sum
of the counts. -/
def compute_status_overall (rows : List Event) : List StatusRow :=
  ((rows.map Event.status).dedup).map (mkStatusRow rows)

/-- The grouping dimension of the by-dimension tables: the source passes the
column name, which is always `country_name` or `payment_name`. -/
inductive Dim where
  | country_name
  | payment_name
deriving DecidableEq, Repr

/-- The value of the grouping column on an event (`none` = null key, which
pandas `groupby` drops). -/
def Dim.get : Dim → Event → Option String
  | .country_name, e => e.country_name
  | .payment_name, e => some e.payment_name

/-- The statuses observed in the groupable rows of the batch: the columns
produced by `.groupby([group_col, "status"]).size().unstack(fill_value=0)`. -/
def observedStatuses (rows : List Event) (d : Dim) : List String :=
  ((rows.filter (fun e => (d.get e).isSome)).map Event.status).dedup

/-- The five status columns that `compute_status_by_group` force-creates
(src/app.py:60-62). -/
def keyStatuses : List String :=
  ["accepted", "rejected", "pending", "processing", "is_verify_code"]

/-- The final status-column set of the grouped table: observed statuses plus
the zero-filled key statuses not already present. -/
def ensuredStatuses (rows : List Event) (d : Dim) : List String :=
  observedStatuses rows d ++ keyStatuses.filter (fun s => !((observedStatuses rows d).contains s))

/-- The count cell of the grouped table for dimension value `v` and status
`s`: the size of the `(v, s)` group. -/
def cellCount (rows : List Event) (d : Dim) (v s : String) : Nat :=
  (rows.filter (fun e => d.get e == some v && e.status == s)).length

/-- One output row of `compute_status_by_group`: the dimension value, the
status-count columns, the `total` column, and the two success-rate columns
(`none` embeds pandas `NA`, the undefined-ratio marker). -/
structure GroupRow where
  dim_value : String
  counts : List (String × Nat)
  total : Nat
  success_rate_combined : Option ℚ
  success_rate_strict : Option ℚ
deriving DecidableEq, Repr

/-- The row of the grouped status table for one dimension value
(src/app.py:52-73). -/
def mkGroupRow (rows : List Event) (d : Dim) (v : String) : GroupRow :=
  let cnts := (ensuredStatuses rows d).map (fun s => (s, cellCount rows d v s))
  let total := (cnts.map Prod.snd).sum
  let acc := cellCount rows d v "accepted"
  let rej := cellCount rows d v "rejected"
  let pend := cellCount rows d v "pending"
  { dim_value := v
    counts := cnts
    total := total
    success_rate_combined :=
      if total = 0 then none else some (((acc + pend : Nat) : ℚ) / (total : ℚ))
    success_rate_strict :=
      if acc + rej = 0 then none else some ((acc : ℚ) / ((acc + rej : Nat) : ℚ)) }

/-- Embeds `compute_status_by_group` (src/app.py:52-73): one row per
distinct non-null dimension value. -/
def compute_status_by_group (rows : List Event) (d : Dim) : List GroupRow :=
  ((rows.filterMap d.get).dedup).map (mkGroupRow rows d)

/-- A status-count column of a grouped row, read back from the row itself. -/
def colCount (r : GroupRow) (s : String) : Nat :=
  (r.counts.lookup s).getD 0

/-- Strict lexicographic comparison of two character sequences by code
point: the string order pandas sorts by. -/
def charsLT : List Char → List Char → Bool
  | [], [] => false
  | [], _ :: _ => true
  | _ :: _, [] => false
  | a :: as, b :: bs =>
    if a.toNat < b.toNat then true
    else if b.toNat < a.toNat then false
    else charsLT as bs

/-- Strict code-point lexicographic comparison of strings. -/
def strLT (a b : String) : Bool :=
  charsLT a.data b.data

/-- The lexicographic order on `(user_id, payment_name, createdAt)` used by
`df.sort_values(["user_id", "payment_name", "createdAt"])` (src/app.py:84). -/
def eventLE (a b : Event) : Bool :=
  decide (a.user_id < b.user_id) ||
    (a.user_id == b.user_id &&
      (strLT a.payment_name b.payment_name ||
        (a.payment_name == b.payment_name && decide (a.createdAt ≤ b.createdAt))))

/-- The pre-correlation sort of the batch (src/app.py:84): pandas sorts on
several columns with `numpy.lexsort`, which is stable, hence `mergeSort`. -/
def sortEvents (es : List Event) : List Event :=
  es.mergeSort eventLE

/-- One emitted duration record (a tuple appended to `durations`,
src/app.py:99). -/
structure Sample where
  user_id : Nat
  payment_name : String
  accepted_createdAt : Int
  duration_ms : Int
deriving DecidableEq, Repr

/-- The pending-verification map `last_verify`, keyed by
`(user_id, payment_name)`. -/
abbrev Pending := List ((Nat × String) × Int)

/-- `last_verify[key] = v`: overwrite the entry if the key is present,
insert it otherwise (Python dict assignment). -/
def setPending (m : Pending) (k : Nat × String) (v : Int) : Pending :=
  match m with
  | [] => [(k, v)]
  | (k', v') :: rest => if k' = k then (k, v) :: rest else (k', v') :: setPending rest k v

/-- `del last_verify[key]` (Python dict deletion; keys are unique). -/
def delPending (m : Pending) (k : Nat × String) : Pending :=
  m.filter (fun p => p.1 != k)

/-- One iteration of the correlation loop of `compute_durations`
(src/app.py:89-100), acting on the `(durations, last_verify)` state. -/
def corrStep (st : List Sample × Pending) (e : Event) : List Sample × Pending :=
  let key := (e.user_id, e.payment_name)
  if e.status == "is_verify_code" then
    (st.1, setPending st.2 key e.createdAt)
  else if e.status == "accepted" then
    match st.2.lookup key with
    | some t0 =>
      let dt := e.createdAt - t0
      (if 0 < dt ∧ dt < 24 * 3600 * 1000 then
         st.1 ++ [{ user_id := e.user_id, payment_name := e.payment_name,
                    accepted_createdAt := e.createdAt, duration_ms := dt }]
       else st.1,
       delPending st.2 key)
    | none => st
  else st

/-- The full correlation pass: the `durations` list produced by folding
`corrStep` over the (already sorted) events with empty initial state. -/
def correlate (es : List Event) : List Sample :=
  (es.foldl corrStep ([], [])).1

/-- The duration samples `compute_durations` derives from a batch: empty
when the timestamp or status column is absent (src/app.py:81-82), else the
correlation pass over the sorted rows. -/
def durationSamples (df : DataFrame) : List Sample :=
  if "createdAt" ∈ df.cols ∧ "status" ∈ df.cols then
    correlate (sortEvents df.rows)
  else []

/-- The left merge of the duration samples with the `accepted` events on
`(user_id, payment_name, createdAt)` (src/app.py:111-120): every matching
accepted row contributes one merged row carrying its `country_name`; a
sample with no match keeps a single row with a null country. -/
def mergedSamples (df : DataFrame) (ds : List Sample) : List (Sample × Option String) :=
  let accepted := df.rows.filter (fun e => e.status == "accepted")
  ds.flatMap (fun s =>
    let ms := accepted.filter (fun a =>
      a.user_id == s.user_id && a.payment_name == s.payment_name &&
        a.createdAt == s.accepted_createdAt)
    if ms.isEmpty then [(s, none)] else ms.map (fun a => (s, a.country_name)))

/-- `duration_sec` of a merged row (src/app.py:109). -/
def durSeconds (r : Sample × Option String) : ℚ :=
  (r.1.duration_ms : ℚ) / 1000

/-- Insertion into a sorted list of rationals (used by the median). -/
def insertQ (a : ℚ) : List ℚ → List ℚ
  | [] => [a]
  | b :: bs => if a ≤ b then a :: b :: bs else b :: insertQ a bs

/-- Sorting a list of rationals (used by the median). -/
def sortQ (l : List ℚ) : List ℚ :=
  l.foldr insertQ []

/-- The median of a group of durations, as pandas computes it: middle of
the sorted values, or the mean of the two middle values. -/
def medianQ (vs : List ℚ) : ℚ :=
  let sorted := sortQ vs
  let n := vs.length
  if n = 0 then 0
  else if n % 2 = 1 then sorted.getD (n / 2) 0
  else (sorted.getD (n / 2 - 1) 0 + sorted.getD (n / 2) 0) / 2

/-- The maximum of a group of durations. -/
def maxQ (l : List ℚ) : ℚ :=
  match l with
  | [] => 0
  | x :: xs => xs.foldl max x

/-- One output row of the duration tables: `(dimension value, count,
median, mean, max)` of `duration_sec` (src/app.py:122-132). -/
structure DurRow where
  dim_value : String
  count : Nat
  median : ℚ
  mean : ℚ
  max : ℚ
deriving DecidableEq, Repr

/-- The aggregate row of one duration group. -/
def mkDurRow (k : String) (vs : List ℚ) : DurRow :=
  { dim_value := k, count := vs.length, median := medianQ vs,
    mean := vs.sum / (vs.length : ℚ), max := maxQ vs }

/-- `merged.groupby("payment_name")["duration_sec"].agg(...)`
(src/app.py:122-126); `payment_name` is never null. -/
def groupByPayment (m : List (Sample × Option String)) : List DurRow :=
  ((m.map (fun r => r.1.payment_name)).dedup).map (fun k =>
    mkDurRow k ((m.filter (fun r => r.1.payment_name == k)).map durSeconds))

/-- `merged.groupby("country_name")["duration_sec"].agg(...)`
(src/app.py:128-132); rows with a null `country_name` are dropped by
`groupby`. -/
def groupByCountry (m : List (Sample × Option String)) : List DurRow :=
  ((m.filterMap (fun r => r.2)).dedup).map (fun k =>
    mkDurRow k ((m.filter (fun r => r.2 == some k)).map durSeconds))

/-- Embeds `compute_durations` (src/app.py:76-134), returning the pair
`(by_country, by_payment)`. -/
def compute_durations (df : DataFrame) : List DurRow × List DurRow :=
  if "createdAt" ∈ df.cols ∧ "status" ∈ df.cols then
    let durations := correlate (sortEvents df.rows)
    if durations.isEmpty then ([], [])
    else
      let merged := mergedSamples df durations
      (groupByCountry merged, groupByPayment merged)
  else ([], [])

/-- The sum of the `count` column of a duration table. -/
def sumCounts (t : List DurRow) : Nat :=
  (t.map DurRow.count).sum

/-- A concrete event with the fields the engine reads; the remaining fields
are fixed throughout. -/
def mkEvent (u : Nat) (p : String) (t : Int) (s : String) (c : Option String) : Event :=
  { id := 0, user_id := u, createdAt := t, status := s, payment_id := 0,
    country_id := 0, country_name := c, payment_name := p, method := "card" }

/-- The column name a grouping dimension stands for. -/
def Dim.colName : Dim → String
  | .country_name => "country_name"
  | .payment_name => "payment_name"

/-- Models pandas column access: the first of the columns `cs` absent from
the batch raises `KeyError` with that column's name; with all present the
access succeeds. -/
def requireCols (df : DataFrame) (cs : List String) : Except String Unit :=
  match cs.find? (fun c => !(df.cols.contains c)) with
  | some c => .error c
  | none => .ok ()

/-- `compute_status_overall` on the data frame: `df["status"]`
(src/app.py:46) raises `KeyError` when the status column is absent. -/
def compute_status_overall_df (df : DataFrame) : Except String (List StatusRow) :=
  match requireCols df ["status"] with
  | .error c => .error c
  | .ok _ => .ok (compute_status_overall df.rows)

/-- `compute_status_by_group` on the data frame:
`df.groupby([group_col, "status"])` (src/app.py:54) raises `KeyError` when
the grouping or status column is absent. -/
def compute_status_by_group_df (df : DataFrame) (d : Dim) : Except String (List GroupRow) :=
  match requireCols df [d.colName, "status"] with
  | .error c => .error c
  | .ok _ => .ok (compute_status_by_group df.rows d)

/-- `compute_durations` on the data frame, error paths included: the
`createdAt`/`status` guard (src/app.py:81-82) returns two empty tables
non-fatally, but past it `sort_values` (src/app.py:84) raises when
`user_id` or `payment_name` is absent, and the projection of the accepted
events (src/app.py:111-113) raises when `country_name` is absent (it is
reached only when some duration was produced). -/
def compute_durations_df (df : DataFrame) :
    Except String (List DurRow × List DurRow) :=
  if "createdAt" ∈ df.cols ∧ "status" ∈ df.cols then
    match requireCols df ["user_id", "payment_name"] with
    | .error c => .error c
    | .ok _ =>
      let durations := correlate (sortEvents df.rows)
      if durations.isEmpty then .ok ([], [])
      else
        match requireCols df ["country_name"] with
        | .error c => .error c
        | .ok _ =>
          .ok (groupByCountry (mergedSamples df durations),
               groupByPayment (mergedSamples df durations))
  else .ok ([], [])

/-- The engine calls of one dashboard run in source order
(src/app.py:190-240): the overall status table, the by-country and
by-payment tables, then the duration tables; the first missing-column
access aborts the whole run. -/
def run_report (df : DataFrame) :
    Except String (List StatusRow × List GroupRow × List GroupRow
      × (List DurRow × List DurRow)) :=
  match compute_status_overall_df df with
  | .error c => .error c
  | .ok overall =>
    match compute_status_by_group_df df Dim.country_name with
    | .error c => .error c
    | .ok byCountry =>
      match compute_status_by_group_df df Dim.payment_name with
      | .error c => .error c
      | .ok byPayment =>
        match compute_durations_df df with
        | .error c => .error c
        | .ok durs => .ok (overall, byCountry, byPayment, durs)

/-! ### Properties of the lexicographic event order -/

theorem charsLT_irrefl (a : List Char) : charsLT a a = false := by
  induction a with
  | nil => rfl
  | cons x xs ih => simp [charsLT, ih]

theorem charsLT_trans {a b c : List Char} (hab : charsLT a b = true)
    (hbc : charsLT b c = true) : charsLT a c = true := by
  induction a generalizing b c with
  | nil =>
    cases b with
    | nil => simp [charsLT] at hab
    | cons y ys =>
      cases c with
      | nil => simp [charsLT] at hbc
      | cons z zs => rfl
  | cons x xs ih =>
    cases b with
    | nil => simp [charsLT] at hab
    | cons y ys =>
      cases c with
      | nil => simp [charsLT] at hbc
      | cons z zs =>
        simp only [charsLT] at hab hbc ⊢
        split_ifs at hab hbc ⊢ <;>
          first
          | rfl
          | (exact ih hab hbc)
          | (exfalso; omega)

theorem charsLT_eq_of_not {a b : List Char} (hab : charsLT a b = false)
    (hba : charsLT b a = false) : a = b := by
  induction a generalizing b with
  | nil =>
    cases b with
    | nil => rfl
    | cons y ys => simp [charsLT] at hab
  | cons x xs ih =>
    cases b with
    | nil => simp [charsLT] at hba
    | cons y ys =>
      simp only [charsLT] at hab hba
      split_ifs at hab hba <;>
        first
        | exact Bool.noConfusion hab
        | exact Bool.noConfusion hba
        | (exfalso; omega)
        | (have hx : x = y :=
             Char.eq_of_val_eq (UInt32.toNat.inj (show x.toNat = y.toNat by omega))
           exact hx ▸ congrArg (List.cons x) (ih hab hba))

theorem strLT_irrefl (a : String) : strLT a a = false :=
  charsLT_irrefl a.data

theorem strLT_trans {a b c : String} (hab : strLT a b = true)
    (hbc : strLT b c = true) : strLT a c = true :=
  charsLT_trans hab hbc

theorem strLT_eq_of_not {a b : String} (hab : strLT a b = false)
    (hba : strLT b a = false) : a = b := by
  have h := charsLT_eq_of_not hab hba
  cases a; cases b; simp_all

theorem eventLE_iff {a b : Event} : eventLE a b = true ↔
    (a.user_id < b.user_id ∨ (a.user_id = b.user_id ∧
      (strLT a.payment_name b.payment_name = true ∨
        (a.payment_name = b.payment_name ∧ a.createdAt ≤ b.createdAt)))) := by
  simp [eventLE, Bool.or_eq_true, Bool.and_eq_true, decide_eq_true_eq, beq_iff_eq]

theorem eventLE_trans {a b c : Event} (hab : eventLE a b = true)
    (hbc : eventLE b c = true) : eventLE a c = true := by
  rw [eventLE_iff] at hab hbc ⊢
  rcases hab with h1 | ⟨e1, h1⟩
  · rcases hbc with h2 | ⟨e2, h2⟩
    · exact Or.inl (by omega)
    · exact Or.inl (by omega)
  · rcases hbc with h2 | ⟨e2, h2⟩
    · exact Or.inl (by omega)
    · refine Or.inr ⟨by omega, ?_⟩
      rcases h1 with hs1 | ⟨p1, t1⟩
      · rcases h2 with hs2 | ⟨p2, t2⟩
        · exact Or.inl (strLT_trans hs1 hs2)
        · exact Or.inl (p2 ▸ hs1)
      · rcases h2 with hs2 | ⟨p2, t2⟩
        · exact Or.inl (p1 ▸ hs2)
        · exact Or.inr ⟨p1.trans p2, le_trans t1 t2⟩

theorem eventLE_trans3 : ∀ (a b c : Event), eventLE a b → eventLE b c → eventLE a c :=
  fun _ _ _ hab hbc => eventLE_trans hab hbc

theorem eventLE_total (a b : Event) : eventLE a b || eventLE b a := by
  simp only [Bool.or_eq_true, eventLE_iff]
  rcases Nat.lt_trichotomy a.user_id b.user_id with hu | hu | hu
  · exact Or.inl (Or.inl hu)
  · rcases Bool.eq_false_or_eq_true (strLT a.payment_name b.payment_name) with hp | hp
    · exact Or.inl (Or.inr ⟨hu, Or.inl hp⟩)
    · rcases Bool.eq_false_or_eq_true (strLT b.payment_name a.payment_name) with hq | hq
      · exact Or.inr (Or.inr ⟨hu.symm, Or.inl hq⟩)
      · have hpe : a.payment_name = b.payment_name := strLT_eq_of_not hp hq
        rcases Int.le_total a.createdAt b.createdAt with ht | ht
        · exact Or.inl (Or.inr ⟨hu, Or.inr ⟨hpe, ht⟩⟩)
        · exact Or.inr (Or.inr ⟨hu.symm, Or.inr ⟨hpe.symm, ht⟩⟩)
  · exact Or.inr (Or.inl hu)

/-! ### Counting helpers -/

theorem sum_map_zero {α : Type} (keys : List α) :
    (keys.map (fun _ => (0 : Nat))).sum = 0 := by
  induction keys <;> simp [*]

theorem sum_map_add_nat {α : Type} (l : List α) (f g : α → Nat) :
    (l.map (fun x => f x + g x)).sum = (l.map f).sum + (l.map g).sum := by
  induction l with
  | nil => rfl
  | cons a t ih => simp [ih]; omega

theorem sum_map_ite_zero {α : Type} [DecidableEq α] (keys : List α) (a : α)
    (ha : a ∉ keys) :
    (keys.map (fun k => if a == k then 1 else 0)).sum = 0 := by
  induction keys with
  | nil => rfl
  | cons c cs ih =>
    have hca : ¬(a == c) = true := by
      simp only [beq_iff_eq]
      intro h
      exact ha (h ▸ List.mem_cons_self c cs)
    simp only [List.map_cons, List.sum_cons, if_neg hca]
    rw [ih (fun h => ha (List.mem_cons_of_mem c h))]

theorem sum_map_ite_one {α : Type} [DecidableEq α] (keys : List α) (a : α)
    (hnd : keys.Nodup) (ha : a ∈ keys) :
    (keys.map (fun k => if a == k then 1 else 0)).sum = 1 := by
  induction keys with
  | nil => exact absurd ha (List.not_mem_nil a)
  | cons c cs ih =>
    rcases List.mem_cons.mp ha with h | h
    · have hca : (a == c) = true := by simp [beq_iff_eq, h]
      simp only [List.map_cons, List.sum_cons, if_pos hca]
      have hnotin : a ∉ cs := h ▸ (List.nodup_cons.mp hnd).1
      rw [sum_map_ite_zero cs a hnotin]
    · have hca : ¬(a == c) = true := by
        simp only [beq_iff_eq]
        intro he
        exact (List.nodup_cons.mp hnd).1 (he ▸ h)
      simp only [List.map_cons, List.sum_cons, if_neg hca]
      rw [ih (List.nodup_cons.mp hnd).2 h]

theorem sum_map_count_keys {α : Type} [DecidableEq α] {keys l : List α}
    (hnd : keys.Nodup) (hcov : ∀ x ∈ l, x ∈ keys) :
    (keys.map (fun k => l.count k)).sum = l.length := by
  induction l with
  | nil => simp only [List.count_nil]; exact sum_map_zero keys
  | cons x t ih =>
    simp only [List.count_cons]
    rw [sum_map_add_nat keys (fun k => t.count k) (fun k => if x == k then 1 else 0)]
    rw [ih (fun y hy => hcov y (List.mem_cons_of_mem x hy))]
    rw [sum_map_ite_one keys x hnd (hcov x (List.mem_cons_self x t))]
    simp

theorem length_filter_beq_eq_count_map {α β : Type} [DecidableEq β]
    (l : List α) (f : α → β) (b : β) :
    (l.filter (fun x => f x == b)).length = (l.map f).count b := by
  induction l with
  | nil => rfl
  | cons a t ih =>
    by_cases h : f a = b
    · simp [List.filter_cons, List.count_cons, h, ih]
    · have h1 : (f a == b) = false := beq_eq_false_iff_ne.mpr h
      have h2 : (f a == b) ≠ true := by simp [h1]
      simp only [List.filter_cons, List.map_cons, List.count_cons, if_neg h2, h1]
      simp only [Bool.false_eq_true, if_false]
      rw [ih]
      omega

theorem length_filter_eq_count_filterMap {α β : Type} [DecidableEq β]
    (l : List α) (f : α → Option β) (b : β) :
    (l.filter (fun x => f x == some b)).length = (l.filterMap f).count b := by
  induction l with
  | nil => rfl
  | cons a t ih =>
    cases hfa : f a with
    | none => simp [List.filter_cons, List.filterMap_cons, hfa, ih]
    | some c =>
      by_cases h : c = b
      · simp [List.filter_cons, List.filterMap_cons, hfa, h, List.count_cons, ih]
      · have h1 : (some c == some b) = false := by
          simp only [beq_eq_false_iff_ne, ne_eq, Option.some.injEq]
          exact h
        have h2 : (some c == some b) ≠ true := by simp [h1]
        have h3 : (c == b) = false := beq_eq_false_iff_ne.mpr h
        simp only [List.filter_cons, List.filterMap_cons_some hfa, hfa, if_neg h2,
          List.count_cons, h3, Bool.false_eq_true, if_false]
        rw [ih]
        omega

theorem sum_map_one_of_all {α : Type} (l : List α) (f : α → Nat)
    (hf : ∀ x ∈ l, f x = 1) : (l.map f).sum = l.length := by
  induction l with
  | nil => rfl
  | cons a t ih =>
    simp only [List.map_cons, List.sum_cons, List.length_cons]
    rw [hf a (List.mem_cons_self a t), ih (fun x hx => hf x (List.mem_cons_of_mem a hx))]
    omega

theorem sum_map_div_q {α : Type} (l : List α) (f : α → ℚ) (c : ℚ) :
    (l.map (fun x => f x / c)).sum = (l.map f).sum / c := by
  induction l with
  | nil => simp
  | cons a t ih => simp [ih, add_div]

theorem sum_map_natCast {α : Type} (l : List α) (f : α → Nat) :
    (l.map (fun x => ((f x : Nat) : ℚ))).sum = (((l.map f).sum : Nat) : ℚ) := by
  induction l with
  | nil => simp
  | cons a t ih => simp [ih]

theorem lookup_map_pair {β : Type} (cols : List String) (f : String → β) (s : String)
    (h : s ∈ cols) :
    (cols.map (fun t => (t, f t))).lookup s = some (f s) := by
  induction cols with
  | nil => exact absurd h (List.not_mem_nil s)
  | cons c cs ih =>
    by_cases hc : s = c
    · subst hc
      simp [List.lookup]
    · have hsc : (s == c) = false := beq_eq_false_iff_ne.mpr hc
      simp only [List.map_cons, List.lookup, hsc]
      exact ih ((List.mem_cons.mp h).resolve_left hc)

theorem pair_sublist_of_lt {α : Type} :
    ∀ (l : List α) (i j : Nat) (hij : i < j) (hj : j < l.length),
      List.Sublist [l.get ⟨i, lt_trans hij hj⟩, l.get ⟨j, hj⟩] l
  | [], _, _, _, hj => absurd hj (by simp)
  | _ :: _, _, 0, hij, _ => absurd hij (by omega)
  | a :: t, 0, j + 1, hij, hj =>
    (List.singleton_sublist.mpr (List.get_mem t j (Nat.lt_of_succ_lt_succ hj))).cons₂ a
  | a :: t, i + 1, j + 1, hij, hj =>
    (pair_sublist_of_lt t i j (Nat.lt_of_succ_lt_succ hij) (Nat.lt_of_succ_lt_succ hj)).cons a

theorem lookup_delPending (m : Pending) (k : Nat × String) :
    (delPending m k).lookup k = none := by
  induction m with
  | nil => rfl
  | cons p t ih =>
    obtain ⟨k', v'⟩ := p
    by_cases hp : k' = k
    · have h1 : (k' != k) = false := by simp [bne, hp]
      simp only [delPending, List.filter_cons, h1, Bool.false_eq_true, if_false]
      exact ih
    · have h1 : (k' != k) = true := by simp [bne, hp]
      have h2 : (k == k') = false := beq_eq_false_iff_ne.mpr (fun he => hp he.symm)
      simp only [delPending, List.filter_cons, h1, if_true, List.lookup, h2]
      exact ih

/-! ### Structure of the grouped status table -/

theorem cellCount_eq_count (rows : List Event) (d : Dim) (v s : String) :
    cellCount rows d v s
      = ((rows.filter (fun e => d.get e == some v)).map Event.status).count s := by
  rw [← length_filter_beq_eq_count_map]
  rw [List.filter_filter]
  unfold cellCount
  congr 1
  apply List.filter_congr
  intro e _
  exact Bool.and_comm (d.get e == some v) (e.status == s)

theorem keyStatuses_nodup : keyStatuses.Nodup := by decide

theorem ensuredStatuses_nodup (rows : List Event) (d : Dim) :
    (ensuredStatuses rows d).Nodup := by
  unfold ensuredStatuses
  apply List.Nodup.append
  · exact List.nodup_dedup _
  · exact List.Nodup.filter _ keyStatuses_nodup
  · intro a ha hb
    have h2 := (List.mem_filter.mp hb).2
    simp only [Bool.not_eq_eq_eq_not, Bool.not_true] at h2
    rw [← Bool.not_eq_true, List.elem_iff] at h2
    exact h2 ha

theorem keyStatus_mem_ensured (rows : List Event) (d : Dim) {s : String}
    (hs : s ∈ keyStatuses) : s ∈ ensuredStatuses rows d := by
  unfold ensuredStatuses
  by_cases h : s ∈ observedStatuses rows d
  · exact List.mem_append_left _ h
  · refine List.mem_append_right _ (List.mem_filter.mpr ⟨hs, ?_⟩)
    show (!(List.elem s (observedStatuses rows d))) = true
    simp only [Bool.not_eq_eq_eq_not, Bool.not_true]
    rw [← Bool.not_eq_true, List.elem_iff]
    exact h

theorem status_mem_observed {rows : List Event} {d : Dim} {v : String} {e : Event}
    (he : e ∈ rows.filter (fun x => d.get x == some v)) :
    e.status ∈ observedStatuses rows d := by
  unfold observedStatuses
  rw [List.mem_dedup]
  apply List.mem_map_of_mem
  rw [List.mem_filter] at he ⊢
  refine ⟨he.1, ?_⟩
  have h2 := he.2
  rw [beq_iff_eq] at h2
  simp [h2]

theorem mkGroupRow_counts_lookup (rows : List Event) (d : Dim) (v : String) {s : String}
    (hs : s ∈ ensuredStatuses rows d) :
    (mkGroupRow rows d v).counts.lookup s = some (cellCount rows d v s) :=
  lookup_map_pair (ensuredStatuses rows d) (fun t => cellCount rows d v t) s hs

theorem mkGroupRow_total_eq (rows : List Event) (d : Dim) (v : String) :
    (mkGroupRow rows d v).total
      = (rows.filter (fun e => d.get e == some v)).length := by
  show ((((ensuredStatuses rows d).map (fun s => (s, cellCount rows d v s))).map Prod.snd).sum) = _
  rw [List.map_map]
  have hrw : (Prod.snd ∘ fun s => (s, cellCount rows d v s)) = fun s => cellCount rows d v s := rfl
  rw [hrw]
  have hcell : (fun s => cellCount rows d v s)
      = fun s => ((rows.filter (fun e => d.get e == some v)).map Event.status).count s := by
    funext s
    exact cellCount_eq_count rows d v s
  rw [hcell]
  rw [sum_map_count_keys (ensuredStatuses_nodup rows d) ?hcov]
  · rw [List.length_map]
  · intro x hx
    rw [List.mem_map] at hx
    obtain ⟨e, he, hex⟩ := hx
    have := status_mem_observed he
    rw [hex] at this
    exact List.mem_append_left _ this

/-! ### The overall status table -/

theorem totalStatusCount_eq_length (rows : List Event) :
    totalStatusCount rows = rows.length := by
  unfold totalStatusCount
  have h1 : statusCount rows = fun s => (rows.map Event.status).count s := by
    funext s
    exact length_filter_beq_eq_count_map rows Event.status s
  rw [h1, sum_map_count_keys (List.nodup_dedup _) (fun x hx => List.mem_dedup.mpr hx),
    List.length_map]

/-! ### Single steps of the correlator -/

theorem setPending_cons_self (k : Nat × String) (v v' : Int) (rest : Pending) :
    setPending ((k, v') :: rest) k v = (k, v) :: rest := by
  unfold setPending
  rw [if_pos rfl]

theorem lookup_cons_self (k : Nat × String) (v : Int) (rest : Pending) :
    ((k, v) :: rest).lookup k = some v := by
  simp [List.lookup]

theorem corrStep_verify (st : List Sample × Pending) (e : Event)
    (h : e.status = "is_verify_code") :
    corrStep st e = (st.1, setPending st.2 (e.user_id, e.payment_name) e.createdAt) := by
  simp [corrStep, h]

theorem corrStep_accepted_pending (st : List Sample × Pending) (e : Event) (t0 : Int)
    (hst : e.status = "accepted")
    (hp : st.2.lookup (e.user_id, e.payment_name) = some t0) :
    corrStep st e =
      ((if 0 < e.createdAt - t0 ∧ e.createdAt - t0 < 24 * 3600 * 1000 then
          st.1 ++ [{ user_id := e.user_id, payment_name := e.payment_name,
                     accepted_createdAt := e.createdAt, duration_ms := e.createdAt - t0 }]
        else st.1),
       delPending st.2 (e.user_id, e.payment_name)) := by
  have h1 : (("accepted" : String) == "is_verify_code") = false := by decide
  simp [corrStep, hst, h1, hp]

theorem corrStep_accepted_none (st : List Sample × Pending) (e : Event)
    (hst : e.status = "accepted")
    (hp : st.2.lookup (e.user_id, e.payment_name) = none) :
    corrStep st e = st := by
  have h1 : (("accepted" : String) == "is_verify_code") = false := by decide
  simp [corrStep, hst, h1, hp]

/-! ### Row counts of the duration tables -/

theorem sumCounts_groupByPayment (m : List (Sample × Option String)) :
    sumCounts (groupByPayment m) = m.length := by
  unfold sumCounts groupByPayment
  rw [List.map_map]
  have h1 : (DurRow.count ∘ fun k =>
        mkDurRow k ((m.filter (fun r => r.1.payment_name == k)).map durSeconds))
      = fun k => (m.map (fun r => r.1.payment_name)).count k := by
    funext k
    show ((m.filter (fun r => r.1.payment_name == k)).map durSeconds).length = _
    rw [List.length_map]
    exact length_filter_beq_eq_count_map m (fun r => r.1.payment_name) k
  rw [h1, sum_map_count_keys (List.nodup_dedup _) (fun x hx => List.mem_dedup.mpr hx),
    List.length_map]

theorem sumCounts_groupByCountry (m : List (Sample × Option String)) :
    sumCounts (groupByCountry m) = (m.filterMap (fun r => r.2)).length := by
  unfold sumCounts groupByCountry
  rw [List.map_map]
  have h1 : (DurRow.count ∘ fun k =>
        mkDurRow k ((m.filter (fun r => r.2 == some k)).map durSeconds))
      = fun k => (m.filterMap (fun r => r.2)).count k := by
    funext k
    show ((m.filter (fun r => r.2 == some k)).map durSeconds).length = _
    rw [List.length_map]
    exact length_filter_eq_count_filterMap m (fun r => r.2) k
  rw [h1, sum_map_count_keys (List.nodup_dedup _) (fun x hx => List.mem_dedup.mpr hx)]

theorem mergedSamples_length (df : DataFrame) (ds : List Sample)
    (hnd : (df.rows.filter (fun e => e.status == "accepted")).Pairwise
      (fun a b => ¬(a.user_id = b.user_id ∧ a.payment_name = b.payment_name ∧
        a.createdAt = b.createdAt))) :
    (mergedSamples df ds).length = ds.length := by
  unfold mergedSamples
  rw [List.flatMap, List.length_flatten, List.map_map]
  apply sum_map_one_of_all
  intro s _
  simp only [Function.comp]
  by_cases hms : ((df.rows.filter (fun e => e.status == "accepted")).filter (fun a =>
      a.user_id == s.user_id && a.payment_name == s.payment_name &&
        a.createdAt == s.accepted_createdAt)).isEmpty
  · rw [if_pos hms]
    rfl
  · rw [if_neg hms, List.length_map]
    have hpw := List.Pairwise.filter (fun a : Event =>
        a.user_id == s.user_id && a.payment_name == s.payment_name &&
          a.createdAt == s.accepted_createdAt) hnd
    cases hm : (df.rows.filter (fun e => e.status == "accepted")).filter (fun a =>
        a.user_id == s.user_id && a.payment_name == s.payment_name &&
          a.createdAt == s.accepted_createdAt) with
    | nil => rw [hm] at hms; simp at hms
    | cons a tail =>
      cases tail with
      | nil => rfl
      | cons b t2 =>
        exfalso
        rw [hm] at hpw
        have hR := (List.pairwise_cons.mp hpw).1 b (List.mem_cons_self b t2)
        have ha : a ∈ (df.rows.filter (fun e => e.status == "accepted")).filter (fun x =>
            x.user_id == s.user_id && x.payment_name == s.payment_name &&
              x.createdAt == s.accepted_createdAt) := by
          rw [hm]; exact List.mem_cons_self a (b :: t2)
        have hb : b ∈ (df.rows.filter (fun e => e.status == "accepted")).filter (fun x =>
            x.user_id == s.user_id && x.payment_name == s.payment_name &&
              x.createdAt == s.accepted_createdAt) := by
          rw [hm]; exact List.mem_cons_of_mem a (List.mem_cons_self b t2)
        have hqa := (List.mem_filter.mp ha).2
        have hqb := (List.mem_filter.mp hb).2
        simp only [Bool.and_eq_true, beq_iff_eq] at hqa hqb
        exact hR ⟨hqa.1.1.trans hqb.1.1.symm, hqa.1.2.trans hqb.1.2.symm,
          hqa.2.trans hqb.2.symm⟩

theorem mkGroupRow_strict_eq (rows : List Event) (d : Dim) (v : String) :
    (mkGroupRow rows d v).success_rate_strict
      = (if cellCount rows d v "accepted" + cellCount rows d v "rejected" = 0 then none
         else some ((cellCount rows d v "accepted" : ℚ) /
           ((cellCount rows d v "accepted" + cellCount rows d v "rejected" : Nat) : ℚ))) := rfl

theorem mkGroupRow_combined_eq (rows : List Event) (d : Dim) (v : String) :
    (mkGroupRow rows d v).success_rate_combined
      = (if (mkGroupRow rows d v).total = 0 then none
         else some (((cellCount rows d v "accepted" + cellCount rows d v "pending" : Nat) : ℚ)
           / ((mkGroupRow rows d v).total : ℚ))) := rfl

/-! ### The claims -/

/-- C4: in `statusByDimension`, for every row `success_rate_strict` is
`accepted / (accepted + rejected)` when the denominator is positive and the
explicit undefined marker (`none`, not 0, not 1, not an exception) when the
denominator is zero; `success_rate_combined` is `(accepted + pending) / total`
when `total` is positive and the same marker when `total` is zero. -/
theorem claim4_undefined_ratios (rows : List Event) (d : Dim) (r : GroupRow)
    (hr : r ∈ compute_status_by_group rows d) :
    (colCount r "accepted" + colCount r "rejected" = 0 → r.success_rate_strict = none)
    ∧ (0 < colCount r "accepted" + colCount r "rejected" →
        r.success_rate_strict = some ((colCount r "accepted" : ℚ) /
          ((colCount r "accepted" : ℚ) + (colCount r "rejected" : ℚ))))
    ∧ (r.total = 0 → r.success_rate_combined = none)
    ∧ (0 < r.total →
        r.success_rate_combined = some (((colCount r "accepted" : ℚ) + (colCount r "pending" : ℚ))
          / (r.total : ℚ))) := by
  unfold compute_status_by_group at hr
  rw [List.mem_map] at hr
  obtain ⟨v, hv, rfl⟩ := hr
  have hacc : colCount (mkGroupRow rows d v) "accepted" = cellCount rows d v "accepted" := by
    unfold colCount
    rw [mkGroupRow_counts_lookup rows d v (keyStatus_mem_ensured rows d (by decide))]
    rfl
  have hrej : colCount (mkGroupRow rows d v) "rejected" = cellCount rows d v "rejected" := by
    unfold colCount
    rw [mkGroupRow_counts_lookup rows d v (keyStatus_mem_ensured rows d (by decide))]
    rfl
  have hpend : colCount (mkGroupRow rows d v) "pending" = cellCount rows d v "pending" := by
    unfold colCount
    rw [mkGroupRow_counts_lookup rows d v (keyStatus_mem_ensured rows d (by decide))]
    rfl
  refine ⟨?_, ?_, ?_, ?_⟩
  · intro h0
    rw [hacc, hrej] at h0
    rw [mkGroupRow_strict_eq, if_pos h0]
  · intro hpos
    rw [hacc, hrej] at hpos
    rw [hacc, hrej, mkGroupRow_strict_eq, if_neg (by omega)]
    rw [Nat.cast_add]
  · intro h0
    rw [mkGroupRow_combined_eq, if_pos h0]
  · intro hpos
    rw [hacc, hpend, mkGroupRow_combined_eq, if_neg (by omega)]
    rw [Nat.cast_add]

/-- Witness for C4 at a one-event batch grouped by payment name. -/
theorem claim4_witness :
    ((mkGroupRow [mkEvent 1 "p" 0 "accepted" (some "FR")] Dim.payment_name "p").success_rate_strict
      = some ((colCount (mkGroupRow [mkEvent 1 "p" 0 "accepted" (some "FR")] Dim.payment_name "p") "accepted" : ℚ) /
          ((colCount (mkGroupRow [mkEvent 1 "p" 0 "accepted" (some "FR")] Dim.payment_name "p") "accepted" : ℚ)
            + (colCount (mkGroupRow [mkEvent 1 "p" 0 "accepted" (some "FR")] Dim.payment_name "p") "rejected" : ℚ))))
    ∧ ((mkGroupRow [mkEvent 1 "p" 0 "accepted" (some "FR")] Dim.payment_name "p").success_rate_combined
      = some (((colCount (mkGroupRow [mkEvent 1 "p" 0 "accepted" (some "FR")] Dim.payment_name "p") "accepted" : ℚ)
            + (colCount (mkGroupRow [mkEvent 1 "p" 0 "accepted" (some "FR")] Dim.payment_name "p") "pending" : ℚ))
          / ((mkGroupRow [mkEvent 1 "p" 0 "accepted" (some "FR")] Dim.payment_name "p").total : ℚ))) :=
  ⟨(claim4_undefined_ratios [mkEvent 1 "p" 0 "accepted" (some "FR")] Dim.payment_name
      (mkGroupRow [mkEvent 1 "p" 0 "accepted" (some "FR")] Dim.payment_name "p")
      (List.mem_map_of_mem (mkGroupRow [mkEvent 1 "p" 0 "accepted" (some "FR")] Dim.payment_name)
        (by decide))).2.1 (by decide),
   (claim4_undefined_ratios [mkEvent 1 "p" 0 "accepted" (some "FR")] Dim.payment_name
      (mkGroupRow [mkEvent 1 "p" 0 "accepted" (some "FR")] Dim.payment_name "p")
      (List.mem_map_of_mem (mkGroupRow [mkEvent 1 "p" 0 "accepted" (some "FR")] Dim.payment_name)
        (by decide))).2.2.2 (by decide)⟩

/-- C5: every row of `statusByDimension` carries the five status columns
(each equal to the event count of that status for the row's dimension
value, in particular zero when there are none), and its `total` column is
the sum of the row's status counts (equivalently, the number of events with
that dimension value). -/
theorem claim5_zero_fill_total (rows : List Event) (d : Dim) (r : GroupRow)
    (hr : r ∈ compute_status_by_group rows d) :
    (∀ s ∈ keyStatuses, r.counts.lookup s = some (cellCount rows d r.dim_value s))
    ∧ r.total = (r.counts.map Prod.snd).sum
    ∧ r.total = (rows.filter (fun e => d.get e == some r.dim_value)).length := by
  unfold compute_status_by_group at hr
  rw [List.mem_map] at hr
  obtain ⟨v, hv, rfl⟩ := hr
  have hdim : (mkGroupRow rows d v).dim_value = v := rfl
  rw [hdim]
  exact ⟨fun s hs => mkGroupRow_counts_lookup rows d v (keyStatus_mem_ensured rows d hs),
    rfl, mkGroupRow_total_eq rows d v⟩

/-- Witness for C5 at a one-event batch: the zero-filled `pending` column
exists and the `total` column is the row sum. -/
theorem claim5_witness :
    ((mkGroupRow [mkEvent 1 "p" 0 "accepted" (some "FR")] Dim.payment_name "p").counts.lookup "pending"
      = some (cellCount [mkEvent 1 "p" 0 "accepted" (some "FR")] Dim.payment_name
          (mkGroupRow [mkEvent 1 "p" 0 "accepted" (some "FR")] Dim.payment_name "p").dim_value "pending"))
    ∧ (mkGroupRow [mkEvent 1 "p" 0 "accepted" (some "FR")] Dim.payment_name "p").total
      = (((mkGroupRow [mkEvent 1 "p" 0 "accepted" (some "FR")] Dim.payment_name "p").counts.map Prod.snd).sum) :=
  ⟨(claim5_zero_fill_total [mkEvent 1 "p" 0 "accepted" (some "FR")] Dim.payment_name
      (mkGroupRow [mkEvent 1 "p" 0 "accepted" (some "FR")] Dim.payment_name "p")
      (List.mem_map_of_mem (mkGroupRow [mkEvent 1 "p" 0 "accepted" (some "FR")] Dim.payment_name)
        (by decide))).1 "pending" (by decide),
   (claim5_zero_fill_total [mkEvent 1 "p" 0 "accepted" (some "FR")] Dim.payment_name
      (mkGroupRow [mkEvent 1 "p" 0 "accepted" (some "FR")] Dim.payment_name "p")
      (List.mem_map_of_mem (mkGroupRow [mkEvent 1 "p" 0 "accepted" (some "FR")] Dim.payment_name)
        (by decide))).2.1⟩

theorem requireCols_ok {df : DataFrame} {cs : List String}
    (h : ∀ c ∈ cs, c ∈ df.cols) : requireCols df cs = .ok () := by
  unfold requireCols
  have hn : cs.find? (fun c => !(df.cols.contains c)) = none := by
    rw [List.find?_eq_none]
    intro x hx
    have hc : df.cols.contains x = true := List.elem_iff.mpr (h x hx)
    simp only [hc, Bool.not_true]
    exact Bool.false_ne_true
  rw [hn]

theorem compute_status_overall_df_ok (df : DataFrame) (h : "status" ∈ df.cols) :
    compute_status_overall_df df = .ok (compute_status_overall df.rows) := by
  unfold compute_status_overall_df
  have h1 : requireCols df ["status"] = .ok () := by
    apply requireCols_ok
    intro c hc
    rcases List.mem_cons.mp hc with rfl | hc2
    · exact h
    · exact absurd hc2 (List.not_mem_nil c)
  rw [h1]

theorem compute_status_by_group_df_ok (df : DataFrame) (d : Dim)
    (hd : d.colName ∈ df.cols) (hs : "status" ∈ df.cols) :
    compute_status_by_group_df df d = .ok (compute_status_by_group df.rows d) := by
  unfold compute_status_by_group_df
  have h1 : requireCols df [d.colName, "status"] = .ok () := by
    apply requireCols_ok
    intro c hc
    rcases List.mem_cons.mp hc with rfl | hc2
    · exact hd
    · rcases List.mem_cons.mp hc2 with rfl | hc3
      · exact hs
      · exact absurd hc3 (List.not_mem_nil c)
  rw [h1]

theorem compute_durations_df_ok (df : DataFrame)
    (hu : "user_id" ∈ df.cols) (hp : "payment_name" ∈ df.cols)
    (hc : "country_name" ∈ df.cols) :
    compute_durations_df df = .ok (compute_durations df) := by
  have h1 : requireCols df ["user_id", "payment_name"] = .ok () := by
    apply requireCols_ok
    intro c hc2
    rcases List.mem_cons.mp hc2 with rfl | hc3
    · exact hu
    · rcases List.mem_cons.mp hc3 with rfl | hc4
      · exact hp
      · exact absurd hc4 (List.not_mem_nil c)
  have h2 : requireCols df ["country_name"] = .ok () := by
    apply requireCols_ok
    intro c hc2
    rcases List.mem_cons.mp hc2 with rfl | hc3
    · exact hc
    · exact absurd hc3 (List.not_mem_nil c)
  unfold compute_durations_df compute_durations
  by_cases hg : "createdAt" ∈ df.cols ∧ "status" ∈ df.cols
  · rw [if_pos hg, if_pos hg, h1]
    show (if (correlate (sortEvents df.rows)).isEmpty then
        (.ok ([], []) : Except String (List DurRow × List DurRow))
      else
        match requireCols df ["country_name"] with
        | .error c => .error c
        | .ok _ =>
          .ok (groupByCountry (mergedSamples df (correlate (sortEvents df.rows))),
               groupByPayment (mergedSamples df (correlate (sortEvents df.rows)))))
      = .ok (if (correlate (sortEvents df.rows)).isEmpty then ([], [])
        else (groupByCountry (mergedSamples df (correlate (sortEvents df.rows))),
          groupByPayment (mergedSamples df (correlate (sortEvents df.rows)))))
    by_cases hds : (correlate (sortEvents df.rows)).isEmpty
    · rw [if_pos hds, if_pos hds]
    · rw [if_neg hds, if_neg hds, h2]
  · rw [if_neg hg, if_neg hg]

/-- C8 (the code contradicts the claim): a missing required column is
indeed reported once (the single missing-column list) and the diagnostic
drops nothing, and an absent `createdAt`/`status` does disable correlation
with two empty duration tables — but the run is NOT free of aborts: on a
batch missing only `status`, `df["status"]` in `compute_status_overall`
(src/app.py:46) raises `KeyError`, and on a batch missing only `user_id`
the three status tables succeed and then `sort_values` inside
`compute_durations` (src/app.py:84) raises, even though its own
`createdAt`/`status` guard passed. -/
theorem claim8_missing_column_aborts :
    (prepare_common_cols (DataFrame.mk ["id", "user_id", "createdAt", "payment_id",
        "country_id", "country_name", "payment_name", "method"]
        [mkEvent 1 "p" 0 "accepted" none])).1 = ["status"]
    ∧ (prepare_common_cols (DataFrame.mk ["id", "user_id", "createdAt", "payment_id",
        "country_id", "country_name", "payment_name", "method"]
        [mkEvent 1 "p" 0 "accepted" none])).2
      = DataFrame.mk ["id", "user_id", "createdAt", "payment_id",
        "country_id", "country_name", "payment_name", "method"]
        [mkEvent 1 "p" 0 "accepted" none]
    ∧ compute_durations (DataFrame.mk ["id", "user_id", "createdAt", "payment_id",
        "country_id", "country_name", "payment_name", "method"]
        [mkEvent 1 "p" 0 "accepted" none]) = ([], [])
    ∧ run_report (DataFrame.mk ["id", "user_id", "createdAt", "payment_id",
        "country_id", "country_name", "payment_name", "method"]
        [mkEvent 1 "p" 0 "accepted" none]) = .error "status"
    ∧ run_report (DataFrame.mk ["id", "createdAt", "status", "payment_id",
        "country_id", "country_name", "payment_name", "method"]
        [mkEvent 1 "p" 0 "accepted" none]) = .error "user_id" :=
  ⟨rfl, rfl, rfl, rfl, rfl⟩

/-- C9: in `overallStatusCounts` every row's share is that status's count
divided by the total event count, the shares sum to 1 whenever the batch is
nonempty, and the output is empty when the batch is empty. -/
theorem claim9_share_invariant (rows : List Event) :
    (∀ r ∈ compute_status_overall rows, r.share = (r.count : ℚ) / (rows.length : ℚ))
    ∧ (rows ≠ [] → ((compute_status_overall rows).map StatusRow.share).sum = 1)
    ∧ (rows = [] → compute_status_overall rows = []) := by
  refine ⟨?_, ?_, ?_⟩
  · intro r hr
    unfold compute_status_overall at hr
    rw [List.mem_map] at hr
    obtain ⟨s, hs, rfl⟩ := hr
    show (statusCount rows s : ℚ) / (totalStatusCount rows : ℚ)
        = ((statusCount rows s : Nat) : ℚ) / (rows.length : ℚ)
    rw [totalStatusCount_eq_length]
  · intro hne
    unfold compute_status_overall
    rw [List.map_map]
    have h1 : (StatusRow.share ∘ mkStatusRow rows)
        = fun s => ((statusCount rows s : Nat) : ℚ) / ((totalStatusCount rows : Nat) : ℚ) := rfl
    rw [h1, sum_map_div_q, sum_map_natCast]
    show ((totalStatusCount rows : Nat) : ℚ) / ((totalStatusCount rows : Nat) : ℚ) = 1
    apply div_self
    rw [totalStatusCount_eq_length]
    exact Nat.cast_ne_zero.mpr (fun h0 => hne (List.length_eq_zero.mp h0))
  · intro h
    subst h
    rfl

/-- Witness for C9 at a concrete two-event batch and at the empty batch. -/
theorem claim9_witness :
    ((compute_status_overall [mkEvent 1 "p" 0 "accepted" none,
        mkEvent 2 "p" 5 "rejected" none]).map StatusRow.share).sum = 1
    ∧ compute_status_overall [] = []
    ∧ (mkStatusRow [mkEvent 1 "p" 0 "accepted" none, mkEvent 2 "p" 5 "rejected" none] "accepted").share
      = ((mkStatusRow [mkEvent 1 "p" 0 "accepted" none, mkEvent 2 "p" 5 "rejected" none] "accepted").count : ℚ)
          / (([mkEvent 1 "p" 0 "accepted" none, mkEvent 2 "p" 5 "rejected" none] : List Event).length : ℚ) :=
  ⟨(claim9_share_invariant [mkEvent 1 "p" 0 "accepted" none, mkEvent 2 "p" 5 "rejected" none]).2.1
      (by decide),
   (claim9_share_invariant []).2.2 rfl,
   (claim9_share_invariant [mkEvent 1 "p" 0 "accepted" none, mkEvent 2 "p" 5 "rejected" none]).1
      (mkStatusRow [mkEvent 1 "p" 0 "accepted" none, mkEvent 2 "p" 5 "rejected" none] "accepted")
      (List.mem_map_of_mem
        (mkStatusRow [mkEvent 1 "p" 0 "accepted" none, mkEvent 2 "p" 5 "rejected" none])
        (by decide))⟩

/-- C2: at an accepted event whose key has a pending verification, a sample
is emitted exactly when `0 < duration_ms < 86400000` (out-of-range durations
are discarded, not clamped), and the pending entry for the key is removed
whether or not the bound passes. -/
theorem claim2_bound_and_consume (ds : List Sample) (pend : Pending) (e : Event) (t0 : Int)
    (hst : e.status = "accepted")
    (hp : pend.lookup (e.user_id, e.payment_name) = some t0) :
    (corrStep (ds, pend) e).1
      = (if 0 < e.createdAt - t0 ∧ e.createdAt - t0 < 86400000 then
           ds ++ [{ user_id := e.user_id, payment_name := e.payment_name,
                    accepted_createdAt := e.createdAt, duration_ms := e.createdAt - t0 }]
         else ds)
    ∧ ((corrStep (ds, pend) e).2).lookup (e.user_id, e.payment_name) = none := by
  rw [corrStep_accepted_pending (ds, pend) e t0 hst hp]
  constructor
  · norm_num
  · exact lookup_delPending pend (e.user_id, e.payment_name)

/-- Witness for C2: a pending verification at 0 satisfied at 3000 emits one
3000 ms sample and clears the pending entry. -/
theorem claim2_witness :
    (corrStep ([], [((1, "p"), 0)]) (mkEvent 1 "p" 3000 "accepted" none)).1
      = [{ user_id := 1, payment_name := "p", accepted_createdAt := 3000, duration_ms := 3000 }]
    ∧ ((corrStep ([], [((1, "p"), 0)]) (mkEvent 1 "p" 3000 "accepted" none)).2).lookup (1, "p")
      = none := by
  have h := claim2_bound_and_consume [] [((1, "p"), 0)] (mkEvent 1 "p" 3000 "accepted" none) 0
    rfl (by decide)
  exact ⟨h.1.trans (by decide), h.2⟩

/-- C6: an accepted event with no pending verification for its key is a
silent no-op for the correlator (no sample, no error, state unchanged),
while the event still counts normally in the status table. -/
theorem claim6_unmatched_accept (ds : List Sample) (pend : Pending) (e : Event) (es : List Event)
    (hst : e.status = "accepted")
    (hp : pend.lookup (e.user_id, e.payment_name) = none) :
    corrStep (ds, pend) e = (ds, pend)
    ∧ ∃ r ∈ compute_status_overall (es ++ [e]), r.status = "accepted"
        ∧ r.count = (es.filter (fun x => x.status == "accepted")).length + 1 := by
  refine ⟨corrStep_accepted_none (ds, pend) e hst hp, ?_⟩
  refine ⟨mkStatusRow (es ++ [e]) "accepted", ?_, rfl, ?_⟩
  · show mkStatusRow (es ++ [e]) "accepted"
        ∈ (((es ++ [e]).map Event.status).dedup).map (mkStatusRow (es ++ [e]))
    apply List.mem_map_of_mem
    rw [List.mem_dedup, List.mem_map]
    exact ⟨e, List.mem_append_right es (List.mem_cons_self e []), hst⟩
  · show statusCount (es ++ [e]) "accepted" = _
    unfold statusCount
    rw [List.filter_append, List.length_append]
    congr 1
    simp [List.filter_cons, hst]

/-- Witness for C6: a lone accepted event with empty pending state. -/
theorem claim6_witness :
    corrStep ([], []) (mkEvent 1 "p" 3000 "accepted" none) = ([], [])
    ∧ ∃ r ∈ compute_status_overall ([] ++ [mkEvent 1 "p" 3000 "accepted" none]),
        r.status = "accepted"
        ∧ r.count = (([] : List Event).filter (fun x => x.status == "accepted")).length + 1 :=
  claim6_unmatched_accept [] [] (mkEvent 1 "p" 3000 "accepted" none) [] rfl rfl

/-- C7: the pre-correlation sort is stable — two events that agree on
`user_id`, `payment_name` and `createdAt` keep their input order, stated as
the pair remaining a sublist of the sorted batch; so same-timestamp
verify/accept pairs are correlated in input order. -/
theorem claim7_stable_sort (es : List Event) (i j : Nat) (hij : i < j) (hj : j < es.length)
    (hu : (es.get ⟨i, lt_trans hij hj⟩).user_id = (es.get ⟨j, hj⟩).user_id)
    (hp : (es.get ⟨i, lt_trans hij hj⟩).payment_name = (es.get ⟨j, hj⟩).payment_name)
    (ht : (es.get ⟨i, lt_trans hij hj⟩).createdAt = (es.get ⟨j, hj⟩).createdAt) :
    List.Sublist [es.get ⟨i, lt_trans hij hj⟩, es.get ⟨j, hj⟩] (sortEvents es) := by
  unfold sortEvents
  apply List.pair_sublist_mergeSort eventLE_trans3 eventLE_total
  · exact eventLE_iff.mpr (Or.inr ⟨hu, Or.inr ⟨hp, le_of_eq ht⟩⟩)
  · exact pair_sublist_of_lt es i j hij hj

/-- Witness for C7: a verify and an accept with identical key and timestamp
stay in input order through the sort. -/
theorem claim7_witness :
    List.Sublist [mkEvent 1 "p" 5 "is_verify_code" none, mkEvent 1 "p" 5 "accepted" none]
      (sortEvents [mkEvent 1 "p" 5 "is_verify_code" none, mkEvent 1 "p" 5 "accepted" none]) :=
  claim7_stable_sort
    [mkEvent 1 "p" 5 "is_verify_code" none, mkEvent 1 "p" 5 "accepted" none]
    0 1 (by decide) (by decide) rfl rfl rfl

theorem correlate_two_verify_one_accept (u : Nat) (p : String) (t0 t1 t2 : Int)
    (hpos : 0 < t2 - t1) (hlt : t2 - t1 < 24 * 3600 * 1000) :
    correlate [mkEvent u p t0 "is_verify_code" none, mkEvent u p t1 "is_verify_code" none,
        mkEvent u p t2 "accepted" none]
      = [{ user_id := u, payment_name := p, accepted_createdAt := t2,
           duration_ms := t2 - t1 }] := by
  have s1 : corrStep ([], []) (mkEvent u p t0 "is_verify_code" none)
      = ([], [((u, p), t0)]) := by
    rw [corrStep_verify ([], []) _ rfl]
    rfl
  have s2 : corrStep ([], [((u, p), t0)]) (mkEvent u p t1 "is_verify_code" none)
      = ([], [((u, p), t1)]) := by
    rw [corrStep_verify ([], [((u, p), t0)]) _ rfl]
    show (([] : List Sample), setPending [((u, p), t0)] (u, p) t1) = _
    rw [setPending_cons_self]
  have s3 : corrStep ([], [((u, p), t1)]) (mkEvent u p t2 "accepted" none)
      = ([{ user_id := u, payment_name := p, accepted_createdAt := t2,
            duration_ms := t2 - t1 }], delPending [((u, p), t1)] (u, p)) := by
    rw [corrStep_accepted_pending ([], [((u, p), t1)]) _ t1 rfl
      (lookup_cons_self (u, p) t1 [])]
    rw [if_pos ⟨hpos, hlt⟩]
    rfl
  unfold correlate
  rw [List.foldl_cons, List.foldl_cons, List.foldl_cons, List.foldl_nil, s1, s2, s3]

/-- C1 (counterexample to the unconditional claim): for `verify@0`,
`verify@1`, `accepted@86400001` — which satisfy `t0 < t1 < t2` — the
correlator emits no sample at all (the duration `t2 - t1 = 86400000 ms` is
not under one day), not "exactly one sample of duration `t2 - t1`". -/
theorem claim1_counterexample :
    durationSamples (DataFrame.mk needed_cols
      [mkEvent 1 "p" 0 "is_verify_code" none, mkEvent 1 "p" 1 "is_verify_code" none,
       mkEvent 1 "p" 86400001 "accepted" none]) = [] := by
  unfold durationSamples
  rw [show sortEvents [mkEvent 1 "p" 0 "is_verify_code" none,
        mkEvent 1 "p" 1 "is_verify_code" none, mkEvent 1 "p" 86400001 "accepted" none]
      = [mkEvent 1 "p" 0 "is_verify_code" none, mkEvent 1 "p" 1 "is_verify_code" none,
         mkEvent 1 "p" 86400001 "accepted" none]
    from List.mergeSort_of_sorted (by decide)]
  decide

/-- C1 (amended): on a batch `verify@t0`, `verify@t1`, `accepted@t2` for one
key with `t0 < t1 < t2`, provided additionally `t2 - t1 < 86400000`, the
pipeline emits exactly one DurationSample with duration `t2 - t1` (the
latest verification wins — never `t2 - t0`): a fresh `is_verify_code`
overwrites, not accumulates, the pending timestamp of its key. -/
theorem claim1_amended (u : Nat) (p : String) (t0 t1 t2 : Int)
    (h01 : t0 < t1) (h12 : t1 < t2) (hbound : t2 - t1 < 86400000) :
    durationSamples (DataFrame.mk needed_cols
      [mkEvent u p t0 "is_verify_code" none, mkEvent u p t1 "is_verify_code" none,
       mkEvent u p t2 "accepted" none])
      = [{ user_id := u, payment_name := p, accepted_createdAt := t2,
           duration_ms := t2 - t1 }] := by
  unfold durationSamples
  show (if ("createdAt" : String) ∈ needed_cols ∧ ("status" : String) ∈ needed_cols then
      correlate (sortEvents [mkEvent u p t0 "is_verify_code" none,
        mkEvent u p t1 "is_verify_code" none, mkEvent u p t2 "accepted" none]) else [])
    = [{ user_id := u, payment_name := p, accepted_createdAt := t2, duration_ms := t2 - t1 }]
  rw [if_pos (⟨by decide, by decide⟩ :
    ("createdAt" : String) ∈ needed_cols ∧ ("status" : String) ∈ needed_cols)]
  have l01 : eventLE (mkEvent u p t0 "is_verify_code" none)
      (mkEvent u p t1 "is_verify_code" none) = true :=
    eventLE_iff.mpr (Or.inr ⟨rfl, Or.inr ⟨rfl, le_of_lt h01⟩⟩)
  have l02 : eventLE (mkEvent u p t0 "is_verify_code" none)
      (mkEvent u p t2 "accepted" none) = true :=
    eventLE_iff.mpr (Or.inr ⟨rfl, Or.inr ⟨rfl, le_of_lt (lt_trans h01 h12)⟩⟩)
  have l12 : eventLE (mkEvent u p t1 "is_verify_code" none)
      (mkEvent u p t2 "accepted" none) = true :=
    eventLE_iff.mpr (Or.inr ⟨rfl, Or.inr ⟨rfl, le_of_lt h12⟩⟩)
  have hsorted : sortEvents [mkEvent u p t0 "is_verify_code" none,
      mkEvent u p t1 "is_verify_code" none, mkEvent u p t2 "accepted" none]
      = [mkEvent u p t0 "is_verify_code" none, mkEvent u p t1 "is_verify_code" none,
         mkEvent u p t2 "accepted" none] := by
    apply List.mergeSort_of_sorted
    refine List.Pairwise.cons ?_ (List.Pairwise.cons ?_ (List.pairwise_singleton _ _))
    · intro b hb
      rcases List.mem_cons.mp hb with rfl | hb2
      · exact l01
      · rcases List.mem_cons.mp hb2 with rfl | hb3
        · exact l02
        · exact absurd hb3 (List.not_mem_nil b)
    · intro b hb
      rcases List.mem_cons.mp hb with rfl | hb2
      · exact l12
      · exact absurd hb2 (List.not_mem_nil b)
  rw [hsorted]
  exact correlate_two_verify_one_accept u p t0 t1 t2 (by omega) (by omega)

/-- Witness for the amended C1 at `t0 = 0 < t1 = 5 < t2 = 3000`. -/
theorem claim1_amended_witness :
    durationSamples (DataFrame.mk needed_cols
      [mkEvent 7 "p" 0 "is_verify_code" none, mkEvent 7 "p" 5 "is_verify_code" none,
       mkEvent 7 "p" 3000 "accepted" none])
      = [{ user_id := 7, payment_name := "p", accepted_createdAt := 3000,
           duration_ms := 3000 - 5 }] :=
  claim1_amended 7 "p" 0 5 3000 (by decide) (by decide) (by decide)

/-- C3 (counterexample): with `verify@0` and two identical `accepted@1000`
events for the same key, the correlator emits exactly one sample but the
join back to the accepted events fans out, so the by-payment duration
counts sum to 2 > 1 — the claimed "at most the number of samples" fails. -/
theorem claim3_counterexample :
    ¬ (sumCounts (compute_durations (DataFrame.mk needed_cols
        [mkEvent 1 "p" 0 "is_verify_code" none,
         mkEvent 1 "p" 1000 "accepted" (some "FR"),
         mkEvent 1 "p" 1000 "accepted" (some "FR")])).2
      ≤ (durationSamples (DataFrame.mk needed_cols
        [mkEvent 1 "p" 0 "is_verify_code" none,
         mkEvent 1 "p" 1000 "accepted" (some "FR"),
         mkEvent 1 "p" 1000 "accepted" (some "FR")])).length) := by
  unfold compute_durations durationSamples
  rw [show sortEvents [mkEvent 1 "p" 0 "is_verify_code" none,
        mkEvent 1 "p" 1000 "accepted" (some "FR"),
        mkEvent 1 "p" 1000 "accepted" (some "FR")]
      = [mkEvent 1 "p" 0 "is_verify_code" none,
         mkEvent 1 "p" 1000 "accepted" (some "FR"),
         mkEvent 1 "p" 1000 "accepted" (some "FR")]
    from List.mergeSort_of_sorted (by decide)]
  decide

/-- C3 (amended): each matched verify→accept pair yields exactly one
DurationSample, and provided no two accepted events of the batch share an
identical `(user_id, payment_name, createdAt)` triple, the country join
does not duplicate samples: the by-payment duration counts sum to exactly
the number of samples the correlator emitted. (With duplicate accepted
triples the left join fans out and the counts can exceed the sample count,
as the counterexample shows.) -/
theorem claim3_amended (df : DataFrame)
    (hnd : (df.rows.filter (fun e => e.status == "accepted")).Pairwise
      (fun a b => ¬(a.user_id = b.user_id ∧ a.payment_name = b.payment_name ∧
        a.createdAt = b.createdAt))) :
    sumCounts (compute_durations df).2 = (durationSamples df).length := by
  unfold compute_durations durationSamples
  by_cases hc : "createdAt" ∈ df.cols ∧ "status" ∈ df.cols
  · rw [if_pos hc, if_pos hc]
    show sumCounts (if (correlate (sortEvents df.rows)).isEmpty then
        (([], []) : List DurRow × List DurRow)
      else (groupByCountry (mergedSamples df (correlate (sortEvents df.rows))),
        groupByPayment (mergedSamples df (correlate (sortEvents df.rows))))).2
      = (correlate (sortEvents df.rows)).length
    by_cases hds : (correlate (sortEvents df.rows)).isEmpty
    · rw [if_pos hds]
      rw [List.isEmpty_iff] at hds
      rw [hds]
      rfl
    · rw [if_neg hds]
      show sumCounts (groupByPayment (mergedSamples df (correlate (sortEvents df.rows)))) = _
      rw [sumCounts_groupByPayment, mergedSamples_length df _ hnd]
  · rw [if_neg hc, if_neg hc]
    rfl

/-- Witness for the amended C3 at a batch with a single accepted event. -/
theorem claim3_amended_witness :
    sumCounts (compute_durations (DataFrame.mk needed_cols
      [mkEvent 1 "p" 0 "is_verify_code" none,
       mkEvent 1 "p" 1000 "accepted" (some "FR")])).2
    = (durationSamples (DataFrame.mk needed_cols
      [mkEvent 1 "p" 0 "is_verify_code" none,
       mkEvent 1 "p" 1000 "accepted" (some "FR")])).length :=
  claim3_amended (DataFrame.mk needed_cols
    [mkEvent 1 "p" 0 "is_verify_code" none,
     mkEvent 1 "p" 1000 "accepted" (some "FR")]) (by decide)

/-- C10: grouping drops null keys — every merged sample row counts in the
by-payment duration table while only rows with a non-null `country_name`
count in the by-country table, so the by-country counts never exceed the
by-payment counts; and on a batch whose accepting event has a null
`country_name` the inequality is strict. -/
theorem claim10_null_dimension_keys :
    (∀ df : DataFrame, sumCounts (compute_durations df).1 ≤ sumCounts (compute_durations df).2)
    ∧ sumCounts (compute_durations (DataFrame.mk needed_cols
        [mkEvent 1 "p" 0 "is_verify_code" none, mkEvent 1 "p" 3000 "accepted" none])).1
      < sumCounts (compute_durations (DataFrame.mk needed_cols
        [mkEvent 1 "p" 0 "is_verify_code" none, mkEvent 1 "p" 3000 "accepted" none])).2 := by
  constructor
  · intro df
    unfold compute_durations
    by_cases hc : "createdAt" ∈ df.cols ∧ "status" ∈ df.cols
    · rw [if_pos hc]
      show sumCounts (if (correlate (sortEvents df.rows)).isEmpty then
          (([], []) : List DurRow × List DurRow)
        else (groupByCountry (mergedSamples df (correlate (sortEvents df.rows))),
          groupByPayment (mergedSamples df (correlate (sortEvents df.rows))))).1
        ≤ sumCounts (if (correlate (sortEvents df.rows)).isEmpty then
          (([], []) : List DurRow × List DurRow)
        else (groupByCountry (mergedSamples df (correlate (sortEvents df.rows))),
          groupByPayment (mergedSamples df (correlate (sortEvents df.rows))))).2
      by_cases hds : (correlate (sortEvents df.rows)).isEmpty
      · rw [if_pos hds]
      · rw [if_neg hds]
        show sumCounts (groupByCountry (mergedSamples df (correlate (sortEvents df.rows))))
          ≤ sumCounts (groupByPayment (mergedSamples df (correlate (sortEvents df.rows))))
        rw [sumCounts_groupByCountry, sumCounts_groupByPayment]
        exact List.length_filterMap_le _ _
    · rw [if_neg hc]
  · unfold compute_durations
    rw [show sortEvents [mkEvent 1 "p" 0 "is_verify_code" none,
          mkEvent 1 "p" 3000 "accepted" none]
        = [mkEvent 1 "p" 0 "is_verify_code" none, mkEvent 1 "p" 3000 "accepted" none]
      from List.mergeSort_of_sorted (by decide)]
    decide
